import Mathlib

/-!
Shallow embedding of the snake simulation and its reinforcement-learning
environment adapter, from `src/snake/objects/snake_head.py` and
`src/snake/env.py`.

Conventions of the embedding:
* `Vector2` is the engine's integer 2-vector.  The file
  `engine/game_object.py` is not among the core sources; the spec (section 3)
  describes positions as integer pairs with componentwise addition, which is
  exactly `+` on `ℤ × ℤ`.  The `x` field is `.1`, the `y` field is `.2`.
* Python integers are modelled by `ℤ` (they do not overflow); sizes and ages
  by `ℕ`.
* The engine's object pool (`game.game_objects`, filtered by type in the
  adapter's `pieces` / `head` / `cherry` properties) is modelled by explicit
  fields: the single head's fields, the list of live pieces, the cherry.
* `PLAY_AREA` (from `snake/constants.py`, not among the core sources) is a
  parameter `pa : ℕ × ℕ`; `Level.init` ranges `x` over `pa.1` and `y` over
  `pa.2`, and `SnakeHead.update` wraps `x` at `pa.1` and `y` at `pa.2`,
  exactly as the source indexes `PLAY_AREA`.
* Python's `set` of free cells is modelled by a `List Vector2`: membership is
  the semantics that matters, and the list order stands for the set's
  unspecified iteration order.
-/

abbrev Vector2 : Type := ℤ × ℤ

/-- Persistent fields of a `SnakePiece` (trailing segment): its position,
immutable after creation, and its age. -/
structure SnakePiece where
  position : Vector2
  age : ℕ
deriving DecidableEq

/-- Modelled from the spec: a deterministic seeded random generator standing
in for the game's random source.  The seeding glue (`snake/snake.py`, which
receives `random_seed` from the adapter) is not among the core sources; the
spec (section 5) requires cherry draws to be deterministic given the seed.
A linear congruential generator over `ℕ`. -/
structure Rng where
  seed : ℕ
deriving DecidableEq

/-- One raw draw: the current seed is the value, and the state advances. -/
def Rng.next (r : Rng) : ℕ × Rng :=
  (r.seed, ⟨(r.seed * 1103515245 + 12345) % 2147483648⟩)

/-- Draw reduced modulo `bound`, as `np.random.RandomState.randint(bound)`. -/
def Rng.randint (r : Rng) (bound : ℕ) : ℕ × Rng :=
  let (v, r') := r.next
  (v % bound, r')

/-- The live simulation: the `Level`'s own fields (`free_space` and the
cherry's position), the head's fields (`position`, `direction`, `length`
as `headPos`, `headDir`, `headLength`), the live pieces, the game's random
source and its exit flag. -/
structure Level where
  free_space : List Vector2
  headPos : Vector2
  headDir : Vector2
  headLength : ℕ
  pieces : List SnakePiece
  cherryPos : Vector2
  rng : Rng
  should_exit : Bool
deriving DecidableEq

/-- Method `Level.occupy_space`: remove the cell from the free set if it is
present (`List.erase` is a no-op on an absent element). -/
def Level.occupy_space (s : Level) (p : Vector2) : Level :=
  { s with free_space := s.free_space.erase p }

/-- Method `Level.unoccupy_space`: add the cell back if it is absent. -/
def Level.unoccupy_space (s : Level) (p : Vector2) : Level :=
  if p ∈ s.free_space then s else { s with free_space := p :: s.free_space }

/-- Method `Level.cherry_position_lottery`:
`random.choice(list(self.free_space))`.  The uniform choice over the free
set is modelled from the spec (section 4.1) as a deterministic draw: an rng value
indexes into the free list.  Drawing from an empty free set is undefined
behaviour per spec section 4.1; the `getD` default is irrelevant then. -/
def Level.cherry_position_lottery (s : Level) : Vector2 × Level :=
  let (v, r') := s.rng.next
  (s.free_space.getD (v % s.free_space.length) (0, 0), { s with rng := r' })

/-- Method `Level.create_cherry`: a new cherry at the lottery position,
replacing the previous one.  The free set is not touched. -/
def Level.create_cherry (s : Level) : Level :=
  let (pos, s') := Level.cherry_position_lottery s
  { s' with cherryPos := pos }

/-- Method `Level.on_cherry_eaten`: respawn the cherry. -/
def Level.on_cherry_eaten (s : Level) : Level :=
  Level.create_cherry s

/-- Method `SnakeHead.on_cherry_eaten`: the cherry's `on_being_eaten` (which
asks the level to respawn the cherry and destroys the eaten one), followed by
`self.length += 1`. -/
def SnakeHead.on_cherry_eaten (s : Level) : Level :=
  let s' := Level.on_cherry_eaten s
  { s' with headLength := s'.headLength + 1 }

/-- Method `SnakeHead.on_collision`: a `pass` stub, leaving all state
unchanged. -/
def SnakeHead.on_collision (s : Level) : Level := s

/-- Call `GameObject.instantiate(..., SnakePiece, position=old_pos,
head=self)`: `SnakePiece.init` occupies its cell, and the new piece (age 0)
joins the pool. -/
def SnakePiece.instantiate (s : Level) (pos : Vector2) : Level :=
  let s' := Level.occupy_space s pos
  { s' with pieces := s'.pieces ++ [⟨pos, 0⟩] }

/-- Method `SnakeHead.update` (src/snake/objects/snake_head.py lines 79-103):
release the current cell, move by `direction`, check collision (no-op stub),
occupy the new cell, eat the cherry if co-located, spawn a trailing piece at
the old position, then wrap overflowing coordinates to 0. -/
def SnakeHead.update (pa : ℕ × ℕ) (s : Level) : Level :=
  let s1 := Level.unoccupy_space s s.headPos
  let old_pos := s1.headPos
  let s2 := { s1 with headPos := s1.headPos + s1.headDir }
  let s3 := if s2.headPos ∈ s2.free_space then s2 else SnakeHead.on_collision s2
  let s4 := Level.occupy_space s3 s3.headPos
  let s5 := if s4.headPos = s4.cherryPos then SnakeHead.on_cherry_eaten s4 else s4
  let s6 := SnakePiece.instantiate s5 old_pos
  { s6 with headPos :=
      (if s6.headPos.1 ≥ (pa.1 : ℤ) then 0 else s6.headPos.1,
       if s6.headPos.2 ≥ (pa.2 : ℤ) then 0 else s6.headPos.2) }

/-- Method `SnakePiece.update` (lines 128-132): increment the age; if
`head.length - age <= 0`, release the cell and leave the pool (`none`). -/
def SnakePiece.update (s : Level) (p : SnakePiece) : Level × Option SnakePiece :=
  let p' : SnakePiece := ⟨p.position, p.age + 1⟩
  if (s.headLength : ℤ) - (p'.age : ℤ) ≤ 0 then
    (Level.unoccupy_space s p'.position, none)
  else (s, some p')

/-- Update each piece of a list in order, threading the level state and
keeping the survivors. -/
def updatePieces (s : Level) : List SnakePiece → Level × List SnakePiece
  | [] => (s, [])
  | p :: rest =>
    let r1 := SnakePiece.update s p
    let r2 := updatePieces r1.1 rest
    (r2.1, r1.2.toList ++ r2.2)

/-- Modelled from the spec: one simulation tick (`_run_step` lives in
`snake/snake.py`, which is not among the core sources).  The controller
direction reaches the head (`update_input`); the head updates, spawning this
tick's piece; then the pieces that already existed age and possibly expire
(spec section 2 data flow; the new piece starts this tick at age 0 per section 3, so it
is not updated on its spawn tick). -/
def run_step (pa : ℕ × ℕ) (dir : Vector2) (s : Level) : Level :=
  let s0 := { s with headDir := dir }
  let prev := s0.pieces
  let s1 := SnakeHead.update pa s0
  let spawned := s1.pieces.drop prev.length
  let r := updatePieces s1 prev
  { r.1 with pieces := r.2 ++ spawned }

/-- The environment adapter's persistent fields (`SnakeGameState` in
src/snake/env.py).  The `game` field models `self.game`; before the first
`reset` Python has no such attribute, and every constructed environment here
goes through `reset` at once (see `SnakeEnv.makeEnv`). -/
structure SnakeGameState where
  width : ℕ
  height : ℕ
  headless : Bool
  loop : Bool
  random : Rng
  game : Level
deriving DecidableEq

/-- Method `SnakeGameState.seed` (env.py lines 89-92):
`seed = seed if seed else 1234` then `np.random.RandomState(seed)`.
Here `none` models the omitted argument, and `some 0` is falsy in Python,
hence also replaced by the default 1234. -/
def SnakeGameState.seed (v : Option ℕ) : Rng :=
  ⟨match v with
   | none => 1234
   | some n => if n = 0 then 1234 else n⟩

/-- The initial free list of `Level.init`: `x` over `range(PLAY_AREA[0])`,
`y` over `range(PLAY_AREA[1])`. -/
def initFree (pa : ℕ × ℕ) : List Vector2 :=
  ((List.range pa.1).map
    (fun x => (List.range pa.2).map (fun y => ((x : ℤ), (y : ℤ))))).flatten

/-- Method `Level.init` together with the game construction performed by
`SnakeGameState.reset` (`_init_game` is in `snake/snake.py`, not among the
core sources; modelled from the spec section 2: initialize the free set to the whole
grid, spawn the head — `SnakeHead.init` sets position (0,0), direction (1,0)
and length 3 and does not occupy its cell — then spawn the first cherry). -/
def Level.init (pa : ℕ × ℕ) (random_seed : ℕ) : Level :=
  Level.create_cherry
    { free_space := initFree pa, headPos := (0, 0), headDir := (1, 0),
      headLength := 3, pieces := [], cherryPos := (0, 0),
      rng := ⟨random_seed⟩, should_exit := false }

/-- Method `SnakeGameState.reset`: draw a sub-seed with `randint(99999)` and
construct a fresh game from it. -/
def SnakeGameState.reset (pa : ℕ × ℕ) (e : SnakeGameState) : SnakeGameState :=
  let (v, r') := e.random.randint 99999
  { e with random := r', game := Level.init pa v }

/-- Method `SnakeGameState.step` (env.py lines 76-87): hand the direction to
the controller, run one tick, and derive the reward from the length delta
and the exit flag (the misspelt local `last_lenght` is the source's). -/
def SnakeGameState.step (pa : ℕ × ℕ) (e : SnakeGameState) (dir : Vector2) :
    ℤ × SnakeGameState :=
  let last_lenght := e.game.headLength
  let g' := run_step pa dir e.game
  (if g'.headLength > last_lenght then 1
   else if g'.should_exit then -1 else 0,
   { e with game := g' })

/-- Action-to-direction mapping of `SnakeEnv.step` (env.py lines 168-179):
a `Vector2(0, 0)` gets one component set according to the action; any other
action raises `ValueError`. -/
def actionDir (action : ℤ) : Option Vector2 :=
  if action = 0 then some (1, 0)
  else if action = 1 then some (-1, 0)
  else if action = 2 then some (0, 1)
  else if action = 3 then some (0, -1)
  else none

/-- Observation tensors, indexed by x, y and channel.  The numpy array holds
float64 values, but every value written is a small natural number, which
float64 represents exactly; `ℕ` models them faithfully. -/
abbrev Tensor : Type := ℕ → ℕ → ℕ → ℕ

/-- Assignment `features[x][y][c] = v` on a tensor. -/
def tset (t : Tensor) (x y c v : ℕ) : Tensor :=
  fun a b k => if a = x ∧ b = y ∧ k = c then v else t a b k

/-- Indexing of a numpy axis of size `n`: in-range indices index directly,
negative indices wrap once from the end, and anything else is an
`IndexError` (`none`). -/
def npIdx (n : ℕ) (i : ℤ) : Option ℕ :=
  if 0 ≤ i ∧ i < (n : ℤ) then some i.toNat
  else if -(n : ℤ) ≤ i ∧ i < 0 then some (i + n).toNat
  else none

/-- Bounds guard of `encode`:
`x < self.width and x >= 0 and y < self.height and y >= 0`. -/
def inBounds (w h : ℕ) (p : Vector2) : Prop :=
  0 ≤ p.1 ∧ p.1 < (w : ℤ) ∧ 0 ≤ p.2 ∧ p.2 < (h : ℤ)

instance (w h : ℕ) (p : Vector2) : Decidable (inBounds w h p) :=
  decidable_of_iff (0 ≤ p.1 ∧ p.1 < (w : ℤ) ∧ 0 ≤ p.2 ∧ p.2 < (h : ℤ)) Iff.rfl

/-- Piece loop of `encode`: `features[x][y][0] = piece.age + 1` for each live
piece, with numpy indexing semantics. -/
def writePieces (w h : ℕ) : List SnakePiece → Tensor → Option Tensor
  | [], t => some t
  | p :: rest, t =>
    match npIdx w p.position.1, npIdx h p.position.2 with
    | some xi, some yi => writePieces w h rest (tset t xi yi 0 (p.age + 1))
    | _, _ => none

/-- Projected next head cell of `encode`: `position + direction`, reduced by
`%` when the loop flag is set.  Python's `%` with a positive modulus agrees
with `Int.emod`; the supported grids have positive dimensions. -/
def nextLookahead (e : SnakeGameState) : Vector2 :=
  let n := e.game.headPos + e.game.headDir
  if e.loop then (n.1 % (e.width : ℤ), n.2 % (e.height : ℤ)) else n

/-- Method `SnakeGameState.encode` (env.py lines 115-132). -/
def SnakeGameState.encode (e : SnakeGameState) : Option Tensor :=
  match writePieces e.width e.height e.game.pieces (fun _ _ _ => 0) with
  | none => none
  | some t1 =>
    let t2 := if inBounds e.width e.height e.game.headPos then
        tset t1 e.game.headPos.1.toNat e.game.headPos.2.toNat 1 1
      else t1
    let nxt := nextLookahead e
    let t3 := if inBounds e.width e.height nxt then
        tset t2 nxt.1.toNat nxt.2.toNat 2 1
      else t2
    match npIdx e.width e.game.cherryPos.1, npIdx e.height e.game.cherryPos.2 with
    | some cx, some cy => some (tset t3 cx cy 3 1)
    | _, _ => none

/-- Method `SnakeEnv.step` (env.py lines 168-182): map the action to a
direction or raise, advance the state, return
`(observation, reward, reward < 0, info)`. -/
def SnakeEnv.step (pa : ℕ × ℕ) (e : SnakeGameState) (action : ℤ) :
    Except String (Option Tensor × ℤ × Bool × SnakeGameState) :=
  match actionDir action with
  | none => Except.error "Action not in action space"
  | some d =>
    let (reward, e') := SnakeGameState.step pa e d
    Except.ok (e'.encode, reward, decide (reward < 0), e')

/-- Construction, seeding and reset of an environment: `SnakeEnv.__init__`
checks `(height, width)` against `PLAY_AREA` and installs the default RNG;
`seed` re-seeds it; `reset` draws the sub-seed and builds the game.  The
placeholder game passed to the record stands for the attribute not existing
before `reset`, which overwrites it immediately. -/
def SnakeEnv.makeEnv (pa : ℕ × ℕ) (width height : ℕ) (headless loop : Bool)
    (sv : Option ℕ) : Option SnakeGameState :=
  if (height, width) = pa then
    some (SnakeGameState.reset pa
      { width := width, height := height, headless := headless, loop := loop,
        random := SnakeGameState.seed sv, game := Level.init pa 0 })
  else none

/-- Observations along an action sequence (the trace stops at an invalid
action, which raises in Python before the state advances). -/
def SnakeEnv.traceFrom (pa : ℕ × ℕ) (e : SnakeGameState) :
    List ℤ → List (Option Tensor)
  | [] => []
  | a :: rest =>
    match actionDir a with
    | none => []
    | some d =>
      let e' := (SnakeGameState.step pa e d).2
      e'.encode :: SnakeEnv.traceFrom pa e' rest

/-- Run a sequence of actions; an invalid action raises before the
simulation advances, so it leaves the state unchanged. -/
def SnakeEnv.runActions (pa : ℕ × ℕ) (e : SnakeGameState) :
    List ℤ → SnakeGameState
  | [] => e
  | a :: rest =>
    match actionDir a with
    | none => SnakeEnv.runActions pa e rest
    | some d => SnakeEnv.runActions pa (SnakeGameState.step pa e d).2 rest

/-- Claim C4 and spec section 4.5, written from the spec's words: the value the
observation is claimed to hold at an in-grid cell `(x, y)` and channel `c`.
Channel 0: `age + 1` at each live piece's cell; channel 1: 1 at the head's
cell; channel 2: 1 at the projected next cell; channel 3: 1 at the cherry's
cell. -/
def encodeSpec (e : SnakeGameState) (x y c : ℕ) : ℕ :=
  if c = 0 then
    match e.game.pieces.find? (fun p => decide (p.position = ((x : ℤ), (y : ℤ)))) with
    | some p => p.age + 1
    | none => 0
  else if c = 1 then if e.game.headPos = ((x : ℤ), (y : ℤ)) then 1 else 0
  else if c = 2 then if nextLookahead e = ((x : ℤ), (y : ℤ)) then 1 else 0
  else if c = 3 then if e.game.cherryPos = ((x : ℤ), (y : ℤ)) then 1 else 0
  else 0

/-- Claim C1 step 1, from the claim's words: release the head's current cell
back to the free set. -/
def releaseCurrentCell (s : Level) : Level := Level.unoccupy_space s s.headPos

/-- Claim C1 step 2, from the claim's words: `position := position +
direction`, with no wrap applied. -/
def advancePosition (s : Level) : Level := { s with headPos := s.headPos + s.headDir }

/-- Claim C1 step 3, from the claim's words: if the new position is not in
the free set, invoke the collision handler, a no-op that leaves all state
unchanged. -/
def collisionCheck (s : Level) : Level :=
  if s.headPos ∈ s.free_space then s else s

/-- Claim C1 step 4, from the claim's words: occupy the new position. -/
def occupyNewCell (s : Level) : Level := Level.occupy_space s s.headPos

/-- Claim C1 step 5, from the claim's words: if the new position equals the
cherry's position, increment length by 1 and trigger a cherry respawn. -/
def growAndRespawn (s : Level) : Level :=
  if s.headPos = s.cherryPos then
    Level.create_cherry { s with headLength := s.headLength + 1 }
  else s

/-- Claim C1 step 7, from the claim's words: reset x to 0 if `x ≥ width` and
y to 0 if `y ≥ height`, with no correction for negative coordinates. -/
def wrapOverflow (pa : ℕ × ℕ) (s : Level) : Level :=
  { s with headPos :=
      (if s.headPos.1 ≥ (pa.1 : ℤ) then 0 else s.headPos.1,
       if s.headPos.2 ≥ (pa.2 : ℤ) then 0 else s.headPos.2) }

/-- Repeated updates of a single piece: `pieceRun stFor p k` is the piece's
state after its first `k` updates, where `stFor j` is the level state (in
particular the head's length) seen by the piece's j-th update; `none` means
the piece has been destroyed. -/
def pieceRun (stFor : ℕ → Level) (p : SnakePiece) : ℕ → Option SnakePiece
  | 0 => some p
  | j + 1 =>
    (pieceRun stFor p j).bind (fun q => (SnakePiece.update (stFor (j + 1)) q).2)

/-- Sample level state for witnesses: head at the origin with length 3. -/
def sampleLevel : Level :=
  { free_space := [(2, 2), (3, 3), (1, 2)], headPos := (0, 0), headDir := (1, 0),
    headLength := 3, pieces := [], cherryPos := (3, 3), rng := ⟨7⟩,
    should_exit := false }

/-- Sample environment state for witnesses. -/
def sampleEnv : SnakeGameState :=
  { width := 4, height := 4, headless := true, loop := false, random := ⟨1⟩,
    game := sampleLevel }

/-- Sample environment state with live pieces, for the encoder witness. -/
def sampleEncEnv : SnakeGameState :=
  { width := 4, height := 4, headless := true, loop := false, random := ⟨1⟩,
    game := { free_space := [(3, 0)], headPos := (0, 0), headDir := (1, 0),
              headLength := 3, pieces := [⟨(1, 2), 0⟩, ⟨(2, 2), 4⟩],
              cherryPos := (3, 3), rng := ⟨7⟩, should_exit := false } }

/-! Projection lemmas: which fields each operation leaves untouched. -/

@[simp] lemma occupy_headPos (s : Level) (p : Vector2) :
    (Level.occupy_space s p).headPos = s.headPos := rfl

@[simp] lemma occupy_headDir (s : Level) (p : Vector2) :
    (Level.occupy_space s p).headDir = s.headDir := rfl

@[simp] lemma occupy_headLength (s : Level) (p : Vector2) :
    (Level.occupy_space s p).headLength = s.headLength := rfl

@[simp] lemma occupy_cherryPos (s : Level) (p : Vector2) :
    (Level.occupy_space s p).cherryPos = s.cherryPos := rfl

@[simp] lemma occupy_pieces (s : Level) (p : Vector2) :
    (Level.occupy_space s p).pieces = s.pieces := rfl

@[simp] lemma occupy_should_exit (s : Level) (p : Vector2) :
    (Level.occupy_space s p).should_exit = s.should_exit := rfl

@[simp] lemma unoccupy_headPos (s : Level) (p : Vector2) :
    (Level.unoccupy_space s p).headPos = s.headPos := by
  unfold Level.unoccupy_space; split <;> rfl

@[simp] lemma unoccupy_headDir (s : Level) (p : Vector2) :
    (Level.unoccupy_space s p).headDir = s.headDir := by
  unfold Level.unoccupy_space; split <;> rfl

@[simp] lemma unoccupy_headLength (s : Level) (p : Vector2) :
    (Level.unoccupy_space s p).headLength = s.headLength := by
  unfold Level.unoccupy_space; split <;> rfl

@[simp] lemma unoccupy_cherryPos (s : Level) (p : Vector2) :
    (Level.unoccupy_space s p).cherryPos = s.cherryPos := by
  unfold Level.unoccupy_space; split <;> rfl

@[simp] lemma unoccupy_pieces (s : Level) (p : Vector2) :
    (Level.unoccupy_space s p).pieces = s.pieces := by
  unfold Level.unoccupy_space; split <;> rfl

@[simp] lemma unoccupy_should_exit (s : Level) (p : Vector2) :
    (Level.unoccupy_space s p).should_exit = s.should_exit := by
  unfold Level.unoccupy_space; split <;> rfl

@[simp] lemma create_cherry_headPos (s : Level) :
    (Level.create_cherry s).headPos = s.headPos := rfl

@[simp] lemma create_cherry_headDir (s : Level) :
    (Level.create_cherry s).headDir = s.headDir := rfl

@[simp] lemma create_cherry_headLength (s : Level) :
    (Level.create_cherry s).headLength = s.headLength := rfl

@[simp] lemma create_cherry_pieces (s : Level) :
    (Level.create_cherry s).pieces = s.pieces := rfl

@[simp] lemma create_cherry_free_space (s : Level) :
    (Level.create_cherry s).free_space = s.free_space := rfl

@[simp] lemma create_cherry_should_exit (s : Level) :
    (Level.create_cherry s).should_exit = s.should_exit := rfl

@[simp] lemma instantiate_headPos (s : Level) (p : Vector2) :
    (SnakePiece.instantiate s p).headPos = s.headPos := rfl

@[simp] lemma instantiate_headDir (s : Level) (p : Vector2) :
    (SnakePiece.instantiate s p).headDir = s.headDir := rfl

@[simp] lemma instantiate_headLength (s : Level) (p : Vector2) :
    (SnakePiece.instantiate s p).headLength = s.headLength := rfl

@[simp] lemma instantiate_cherryPos (s : Level) (p : Vector2) :
    (SnakePiece.instantiate s p).cherryPos = s.cherryPos := rfl

@[simp] lemma instantiate_should_exit (s : Level) (p : Vector2) :
    (SnakePiece.instantiate s p).should_exit = s.should_exit := rfl

/-- Membership in a list read off by `getD` at an index below the length. -/
lemma getD_mem_of_lt {α : Type} :
    ∀ (l : List α) (i : ℕ) (d : α), i < l.length → l.getD i d ∈ l
  | a :: l, 0, _, _ => List.mem_cons_self a l
  | a :: l, i + 1, d, h =>
    List.mem_cons_of_mem a (getD_mem_of_lt l i d (by simpa using h))

/-- A cell handed to `unoccupy_space` is free afterwards. -/
lemma mem_unoccupy (s : Level) (p : Vector2) :
    p ∈ (Level.unoccupy_space s p).free_space := by
  unfold Level.unoccupy_space; split
  · assumption
  · exact List.mem_cons_self p s.free_space

/-- C10: calling `seed(0)` does not install seed 0: the argument is falsy,
so the RNG is initialized with the fixed default 1234, indistinguishable
from calling `seed()` with no argument. -/
theorem seed_zero_uses_default :
    SnakeGameState.seed (some 0) = ⟨1234⟩ ∧
    SnakeGameState.seed (some 0) = SnakeGameState.seed none :=
  ⟨rfl, rfl⟩

/-- C7: spawning a cherry draws its position from the current free set but
leaves the free set itself unchanged (both for a direct spawn and for the
respawn on an eaten event). -/
theorem create_cherry_frame (s : Level) (h : s.free_space ≠ []) :
    (Level.create_cherry s).cherryPos ∈ s.free_space ∧
    (Level.create_cherry s).free_space = s.free_space ∧
    (Level.on_cherry_eaten s).free_space = s.free_space := by
  refine ⟨?_, rfl, rfl⟩
  have hlen : 0 < s.free_space.length := List.length_pos.mpr h
  exact getD_mem_of_lt s.free_space _ (0, 0) (Nat.mod_lt _ hlen)

/-- Witness for C7 at a concrete level state. -/
theorem create_cherry_frame_witness :
    sampleLevel.free_space ≠ [] ∧
    ((Level.create_cherry sampleLevel).cherryPos ∈ sampleLevel.free_space ∧
     (Level.create_cherry sampleLevel).free_space = sampleLevel.free_space ∧
     (Level.on_cherry_eaten sampleLevel).free_space = sampleLevel.free_space) :=
  ⟨by decide, create_cherry_frame sampleLevel (by decide)⟩

/-- C3: two environments constructed with the same seed and fed the same
action sequence produce identical observation traces (the reset observation
followed by the observation after each step). -/
theorem determinism_same_seed (pa : ℕ × ℕ) (w h : ℕ) (hl lp : Bool)
    (sv : Option ℕ) (acts : List ℤ) (e₁ e₂ : SnakeGameState)
    (h₁ : SnakeEnv.makeEnv pa w h hl lp sv = some e₁)
    (h₂ : SnakeEnv.makeEnv pa w h hl lp sv = some e₂) :
    e₁.encode :: SnakeEnv.traceFrom pa e₁ acts =
      e₂.encode :: SnakeEnv.traceFrom pa e₂ acts := by
  rw [h₁] at h₂
  injection h₂ with h₂
  rw [h₂]

/-- Witness for C3 at a concrete seed and action list. -/
theorem determinism_same_seed_witness :
    ∃ e, SnakeEnv.makeEnv (4, 4) 4 4 true false (some 5) = some e ∧
      e.encode :: SnakeEnv.traceFrom (4, 4) e [0, 2] =
        e.encode :: SnakeEnv.traceFrom (4, 4) e [0, 2] :=
  ⟨_, rfl, determinism_same_seed (4, 4) 4 4 true false (some 5) [0, 2] _ _ rfl rfl⟩

/-- C6: the action-to-direction mapping of `SnakeEnv.step`, and the rejection
of any other action with an invalid-argument error, before the simulation
advances (the error result carries no successor state). -/
theorem step_action_contract (pa : ℕ × ℕ) (e : SnakeGameState) (a : ℤ)
    (h : a ≠ 0 ∧ a ≠ 1 ∧ a ≠ 2 ∧ a ≠ 3) :
    actionDir 0 = some (1, 0) ∧ actionDir 1 = some (-1, 0) ∧
    actionDir 2 = some (0, 1) ∧ actionDir 3 = some (0, -1) ∧
    SnakeEnv.step pa e a = Except.error "Action not in action space" := by
  obtain ⟨h0, h1, h2, h3⟩ := h
  refine ⟨rfl, rfl, rfl, rfl, ?_⟩
  simp [SnakeEnv.step, actionDir, h0, h1, h2, h3]

/-- Witness for C6 at the out-of-range action 4. -/
theorem step_action_contract_witness :
    ((4 : ℤ) ≠ 0 ∧ (4 : ℤ) ≠ 1 ∧ (4 : ℤ) ≠ 2 ∧ (4 : ℤ) ≠ 3) ∧
    (actionDir 0 = some (1, 0) ∧ actionDir 1 = some (-1, 0) ∧
     actionDir 2 = some (0, 1) ∧ actionDir 3 = some (0, -1) ∧
     SnakeEnv.step (4, 4) sampleEnv 4 = Except.error "Action not in action space") :=
  ⟨by decide, step_action_contract (4, 4) sampleEnv 4 (by decide)⟩

/-- C2: a step with a valid action returns reward +1 if the head's length
increased this tick, else -1 if the simulation's exit flag is set, else 0,
with the +1 branch taking priority; the done flag is true exactly when the
reward is negative. -/
theorem step_reward_contract (pa : ℕ × ℕ) (e : SnakeGameState) (a : ℤ)
    (h : a = 0 ∨ a = 1 ∨ a = 2 ∨ a = 3) :
    ∃ obs r d e', SnakeEnv.step pa e a = Except.ok (obs, r, d, e') ∧
      r = (if e'.game.headLength > e.game.headLength then 1
           else if e'.game.should_exit then -1 else 0) ∧
      (d = true ↔ r < 0) := by
  rcases h with rfl | rfl | rfl | rfl <;>
    exact ⟨_, _, _, _, rfl, rfl, by simp⟩

/-- Witness for C2 at a concrete state and action. -/
theorem step_reward_contract_witness :
    ((0 : ℤ) = 0 ∨ (0 : ℤ) = 1 ∨ (0 : ℤ) = 2 ∨ (0 : ℤ) = 3) ∧
    (∃ obs r d e', SnakeEnv.step (4, 4) sampleEnv 0 = Except.ok (obs, r, d, e') ∧
      r = (if e'.game.headLength > sampleEnv.game.headLength then 1
           else if e'.game.should_exit then -1 else 0) ∧
      (d = true ↔ r < 0)) :=
  ⟨Or.inl rfl, step_reward_contract (4, 4) sampleEnv 0 (Or.inl rfl)⟩

/-- C1: `SnakeHead.update` performs exactly the seven claimed operations in
the claimed order: release the current cell, advance by the direction with
no wrap, run the no-op collision handler when the new cell is not free,
occupy the new cell, grow and respawn the cherry on cherry contact, spawn an
age-0 piece at the pre-move position, and finally wrap only overflowing
coordinates to 0 (negative coordinates are not corrected). -/
theorem snakeHead_update_order (pa : ℕ × ℕ) (s : Level) :
    SnakeHead.update pa s =
      wrapOverflow pa
        (SnakePiece.instantiate
          (growAndRespawn
            (occupyNewCell
              (collisionCheck
                (advancePosition
                  (releaseCurrentCell s)))))
          s.headPos) := by
  unfold SnakeHead.update wrapOverflow releaseCurrentCell advancePosition
    collisionCheck occupyNewCell growAndRespawn SnakePiece.instantiate
    SnakeHead.on_collision SnakeHead.on_cherry_eaten Level.on_cherry_eaten
  simp only [unoccupy_headPos]
  rfl

/-- Characterization of the survivor component of `SnakePiece.update`. -/
lemma update_snd (s : Level) (p : SnakePiece) :
    (SnakePiece.update s p).2 =
      if (s.headLength : ℤ) - ((p.age : ℤ) + 1) ≤ 0 then none
      else some ⟨p.position, p.age + 1⟩ := by
  unfold SnakePiece.update
  push_cast
  split <;> rfl

/-- Characterization of the state component of `SnakePiece.update`. -/
lemma update_fst (s : Level) (p : SnakePiece) :
    (SnakePiece.update s p).1 =
      if (s.headLength : ℤ) - ((p.age : ℤ) + 1) ≤ 0 then
        Level.unoccupy_space s p.position
      else s := by
  unfold SnakePiece.update
  push_cast
  split <;> rfl

/-- Ages count the updates: after j surviving updates the age is j. -/
lemma pieceRun_age (stFor : ℕ → Level) (p : SnakePiece) (h0 : p.age = 0) :
    ∀ j r, pieceRun stFor p j = some r → r.age = j := by
  intro j
  induction j with
  | zero =>
    intro r hr
    rw [pieceRun] at hr
    injection hr with hr
    rw [← hr, h0]
  | succ n ih =>
    intro r hr
    rw [pieceRun] at hr
    cases hn : pieceRun stFor p n with
    | none => rw [hn] at hr; simp at hr
    | some q =>
      rw [hn, Option.some_bind, update_snd] at hr
      split at hr
      · simp at hr
      · injection hr with hr
        rw [← hr]
        simp [ih q hn]

/-- Surviving the update at tick j+1 means the length then exceeded j+1. -/
lemma pieceRun_step_survive (stFor : ℕ → Level) (p : SnakePiece) (h0 : p.age = 0)
    (j : ℕ) (r : SnakePiece) (h : pieceRun stFor p (j + 1) = some r) :
    (j : ℤ) + 1 < ((stFor (j + 1)).headLength : ℤ) := by
  rw [pieceRun] at h
  cases hn : pieceRun stFor p j with
  | none => rw [hn] at h; simp at h
  | some q =>
    rw [hn, Option.some_bind, update_snd] at h
    split at h
    · simp at h
    · rename_i hc
      have hq := pieceRun_age stFor p h0 j q hn
      push_neg at hc
      omega

/-- C5: on each tick a live piece's age increments by exactly 1; it is
destroyed, releasing its cell to the free set, exactly when
`head.length - age ≤ 0`; and if the piece dies at its k-th update while the
head's length never decreased and was always positive, then the head's
length at the time of the expiry check equals k — that is, a piece created
at step t is destroyed at step t + L' with L' the length at the expiry
check. -/
theorem snakePiece_lifetime (stFor : ℕ → Level) (p q : SnakePiece) (k : ℕ)
    (h0 : p.age = 0)
    (hmono : ∀ i j, i ≤ j → (stFor i).headLength ≤ (stFor j).headLength)
    (hpos : ∀ j, 1 ≤ (stFor j).headLength)
    (hk : 1 ≤ k)
    (halive : pieceRun stFor p (k - 1) = some q)
    (hdead : pieceRun stFor p k = none) :
    (∀ j r, pieceRun stFor p j = some r → r.age = j) ∧
    (∀ (s : Level) (r : SnakePiece),
        ((SnakePiece.update s r).2 = none ↔
          (s.headLength : ℤ) - ((r.age : ℤ) + 1) ≤ 0) ∧
        ((SnakePiece.update s r).2 = none →
          r.position ∈ (SnakePiece.update s r).1.free_space)) ∧
    (stFor k).headLength = k := by
  refine ⟨pieceRun_age stFor p h0, ?_, ?_⟩
  · intro s r
    constructor
    · rw [update_snd]
      by_cases hc : (s.headLength : ℤ) - ((r.age : ℤ) + 1) ≤ 0
      · simp [hc]
      · simp [hc]
    · intro hnone
      rw [update_snd] at hnone
      rw [update_fst]
      split at hnone
      · rename_i hc
        rw [if_pos hc]
        exact mem_unoccupy s r.position
      · simp at hnone
  · obtain ⟨m, rfl⟩ : ∃ m, k = m + 1 := ⟨k - 1, by omega⟩
    have hq : pieceRun stFor p m = some q := by simpa using halive
    have hqage : q.age = m := pieceRun_age stFor p h0 m q hq
    have hdead' : (SnakePiece.update (stFor (m + 1)) q).2 = none := by
      rw [pieceRun, hq, Option.some_bind] at hdead
      exact hdead
    have hle : ((stFor (m + 1)).headLength : ℤ) ≤ (m : ℤ) + 1 := by
      rw [update_snd] at hdead'
      split at hdead'
      · rename_i hc; omega
      · simp at hdead'
    have hge : (m : ℤ) + 1 ≤ ((stFor (m + 1)).headLength : ℤ) := by
      rcases Nat.eq_zero_or_pos m with rfl | hm
      · have := hpos (0 + 1)
        omega
      · obtain ⟨n, rfl⟩ : ∃ n, m = n + 1 := ⟨m - 1, by omega⟩
        have hs := pieceRun_step_survive stFor p h0 n q hq
        have hmo := hmono (n + 1) (n + 1 + 1) (by omega)
        push_cast
        omega
    omega

/-- Witness for C5 with a constant length of 3: a fresh piece survives two
updates and is destroyed at its third, where the length is 3. -/
theorem snakePiece_lifetime_witness :
    (pieceRun (fun _ => sampleLevel) ⟨(9, 9), 0⟩ 2 = some ⟨(9, 9), 2⟩) ∧
    ((∀ j r, pieceRun (fun _ => sampleLevel) ⟨(9, 9), 0⟩ j = some r → r.age = j) ∧
     (∀ (s : Level) (r : SnakePiece),
        ((SnakePiece.update s r).2 = none ↔
          (s.headLength : ℤ) - ((r.age : ℤ) + 1) ≤ 0) ∧
        ((SnakePiece.update s r).2 = none →
          r.position ∈ (SnakePiece.update s r).1.free_space)) ∧
     ((fun (_ : ℕ) => sampleLevel) 3).headLength = 3) :=
  ⟨rfl, snakePiece_lifetime (fun (_ : ℕ) => sampleLevel) ⟨(9, 9), 0⟩ ⟨(9, 9), 2⟩ 3 rfl
    (fun _ _ _ => le_refl sampleLevel.headLength)
    (fun _ => (by decide : 1 ≤ sampleLevel.headLength)) (by decide) rfl rfl⟩

@[simp] lemma head_on_cherry_eaten_headPos (s : Level) :
    (SnakeHead.on_cherry_eaten s).headPos = s.headPos := rfl

@[simp] lemma head_on_cherry_eaten_headDir (s : Level) :
    (SnakeHead.on_cherry_eaten s).headDir = s.headDir := rfl

/-- Head position after `SnakeHead.update`: the moved position with overflow
wrapped to 0, underflow untouched. -/
lemma snakeHead_update_headPos (pa : ℕ × ℕ) (s : Level) :
    (SnakeHead.update pa s).headPos =
      (if (s.headPos + s.headDir).1 ≥ (pa.1 : ℤ) then 0 else (s.headPos + s.headDir).1,
       if (s.headPos + s.headDir).2 ≥ (pa.2 : ℤ) then 0 else (s.headPos + s.headDir).2) := by
  unfold SnakeHead.update
  simp [instantiate_headPos, apply_ite Level.headPos, occupy_headPos,
    SnakeHead.on_collision, unoccupy_headPos, unoccupy_headDir]

/-- Aging the pieces does not move the head. -/
lemma updatePieces_headPos (ps : List SnakePiece) (s : Level) :
    (updatePieces s ps).1.headPos = s.headPos := by
  induction ps generalizing s with
  | nil => rfl
  | cons p rest ih =>
    simp only [updatePieces]
    rw [ih, update_fst]
    split <;> simp

/-- Head position after one tick. -/
lemma run_step_headPos (pa : ℕ × ℕ) (d : Vector2) (s : Level) :
    (run_step pa d s).headPos =
      (if (s.headPos + d).1 ≥ (pa.1 : ℤ) then 0 else (s.headPos + d).1,
       if (s.headPos + d).2 ≥ (pa.2 : ℤ) then 0 else (s.headPos + d).2) := by
  unfold run_step
  show (updatePieces _ _).1.headPos = _
  rw [updatePieces_headPos, snakeHead_update_headPos]

/-- Every direction the action map produces moves by at least -1 in each
coordinate. -/
lemma actionDir_bounds (a : ℤ) (v : Vector2) (h : actionDir a = some v) :
    -1 ≤ v.1 ∧ -1 ≤ v.2 := by
  unfold actionDir at h
  split_ifs at h
  all_goals injection h with h
  all_goals rw [← h]
  all_goals exact ⟨by norm_num, by norm_num⟩

/-- Running actions can lower a head coordinate by at most 1 per step. -/
lemma runActions_lower_bound (pa : ℕ × ℕ) :
    ∀ (acts : List ℤ) (e : SnakeGameState) (b : ℤ), b ≤ 0 →
      b ≤ e.game.headPos.1 → b ≤ e.game.headPos.2 →
      b - acts.length ≤ (SnakeEnv.runActions pa e acts).game.headPos.1 ∧
      b - acts.length ≤ (SnakeEnv.runActions pa e acts).game.headPos.2 := by
  intro acts
  induction acts with
  | nil =>
    intro e b hb hx hy
    simpa using ⟨hx, hy⟩
  | cons a rest ih =>
    intro e b hb hx hy
    rw [SnakeEnv.runActions]
    cases hd : actionDir a with
    | none =>
      obtain ⟨H1, H2⟩ := ih e b hb hx hy
      simp only [List.length_cons]
      push_cast
      constructor <;> linarith
    | some d =>
      obtain ⟨hd1, hd2⟩ := actionDir_bounds a d hd
      have hg : (SnakeGameState.step pa e d).2.game = run_step pa d e.game := rfl
      have hpos1 : b - 1 ≤ (SnakeGameState.step pa e d).2.game.headPos.1 := by
        rw [hg, run_step_headPos]
        have hfst : (e.game.headPos + d).1 = e.game.headPos.1 + d.1 := rfl
        dsimp only
        split
        · omega
        · rw [hfst]; omega
      have hpos2 : b - 1 ≤ (SnakeGameState.step pa e d).2.game.headPos.2 := by
        rw [hg, run_step_headPos]
        have hsnd : (e.game.headPos + d).2 = e.game.headPos.2 + d.2 := rfl
        dsimp only
        split
        · omega
        · rw [hsnd]; omega
      obtain ⟨H1, H2⟩ := ih (SnakeGameState.step pa e d).2 (b - 1) (by omega) hpos1 hpos2
      simp only [List.length_cons]
      push_cast at H1 H2 ⊢
      constructor <;> linarith

/-- C8 counterexample: from the initial state (head at (0,0)), the single
valid action 1 (direction (-1,0)) drives the head's x coordinate to -1: the
claim that coordinates stay non-negative under valid actions is false, and
the missing underflow correction is reachable. -/
theorem head_goes_negative :
    ∃ e, SnakeEnv.makeEnv (4, 4) 4 4 true false (some 1) = some e ∧
      e.game.headPos = (0, 0) ∧
      actionDir 1 = some (-1, 0) ∧
      (SnakeEnv.runActions (4, 4) e [1]).game.headPos.1 = -1 := by
  refine ⟨_, rfl, rfl, rfl, ?_⟩
  decide

/-- C8 amended: under any action sequence from a state with non-negative
head coordinates, each coordinate stays at least -(number of steps): a step
moves a coordinate down by at most 1 and the wrap only ever resets an
overflowing coordinate to 0.  Coordinates can, however, become negative
(see the counterexample). -/
theorem head_coordinate_lower_bound (pa : ℕ × ℕ) (e : SnakeGameState)
    (acts : List ℤ)
    (hval : ∀ a ∈ acts, a = 0 ∨ a = 1 ∨ a = 2 ∨ a = 3)
    (hx : 0 ≤ e.game.headPos.1) (hy : 0 ≤ e.game.headPos.2) :
    -(acts.length : ℤ) ≤ (SnakeEnv.runActions pa e acts).game.headPos.1 ∧
    -(acts.length : ℤ) ≤ (SnakeEnv.runActions pa e acts).game.headPos.2 := by
  have h := runActions_lower_bound pa acts e 0 le_rfl hx hy
  simpa using h

/-- Witness for C8 (amended) on a concrete state and action list. -/
theorem head_coordinate_lower_bound_witness :
    (∀ a ∈ ([1, 1] : List ℤ), a = 0 ∨ a = 1 ∨ a = 2 ∨ a = 3) ∧
    (0 : ℤ) ≤ sampleEnv.game.headPos.1 ∧
    (-(([1, 1] : List ℤ).length : ℤ) ≤
        (SnakeEnv.runActions (4, 4) sampleEnv [1, 1]).game.headPos.1 ∧
     -(([1, 1] : List ℤ).length : ℤ) ≤
        (SnakeEnv.runActions (4, 4) sampleEnv [1, 1]).game.headPos.2) :=
  ⟨by decide, by decide,
    head_coordinate_lower_bound (4, 4) sampleEnv [1, 1] (by decide) (by decide)
      (by decide)⟩

/-- In-bounds positions are indexed directly by numpy. -/
lemma npIdx_of_inBounds {w h : ℕ} {p : Vector2} (hp : inBounds w h p) :
    npIdx w p.1 = some p.1.toNat ∧ npIdx h p.2 = some p.2.toNat := by
  obtain ⟨h1, h2, h3, h4⟩ := hp
  constructor <;> simp [npIdx, *]

/-- For an in-bounds position, cell indices determine the position. -/
lemma toNat_cell_iff {w h : ℕ} {p : Vector2} (hp : inBounds w h p) (x y : ℕ) :
    (x = p.1.toNat ∧ y = p.2.toNat) ↔ p = ((x : ℤ), (y : ℤ)) := by
  obtain ⟨px, py⟩ := p
  obtain ⟨h1, h2, h3, h4⟩ := hp
  simp only [Prod.ext_iff]
  dsimp only at h1 h2 h3 h4 ⊢
  omega

/-- Grid cells are in bounds. -/
lemma inBounds_cell {w h : ℕ} (x y : ℕ) (hx : x < w) (hy : y < h) :
    inBounds w h ((x : ℤ), (y : ℤ)) := by
  unfold inBounds
  dsimp only
  omega

/-- Writing one channel leaves the others alone. -/
lemma tset_ne_channel (t : Tensor) (X Y C V x y c : ℕ) (h : c ≠ C) :
    tset t X Y C V x y c = t x y c := by
  simp [tset, h]

/-- Reading back the written cell. -/
lemma tset_eq_cell (t : Tensor) (X Y C V : ℕ) : tset t X Y C V X Y C = V := by
  simp [tset]

/-- Reading a different cell sees the old tensor. -/
lemma tset_ne_cell (t : Tensor) (X Y C V x y c : ℕ) (h : ¬(x = X ∧ y = Y)) :
    tset t X Y C V x y c = t x y c := by
  unfold tset
  rw [if_neg]
  rintro ⟨hx, hy, -⟩
  exact h ⟨hx, hy⟩

/-- Characterization of the piece loop of `encode` for in-bounds pieces at
pairwise-distinct cells. -/
lemma writePieces_char (w h : ℕ) :
    ∀ (ps : List SnakePiece) (t : Tensor),
      (∀ p ∈ ps, inBounds w h p.position) →
      List.Pairwise (fun p q => p.position ≠ q.position) ps →
      ∃ t', writePieces w h ps t = some t' ∧
        ∀ x y c, x < w → y < h →
          t' x y c =
            if c = 0 then
              match ps.find? (fun p => decide (p.position = ((x : ℤ), (y : ℤ)))) with
              | some p => p.age + 1
              | none => t x y c
            else t x y c := by
  intro ps
  induction ps with
  | nil =>
    intro t _ _
    refine ⟨t, rfl, ?_⟩
    intro x y c _ _
    simp [List.find?]
  | cons p rest ih =>
    intro t hb hd
    have hp : inBounds w h p.position := hb p (List.mem_cons_self p rest)
    obtain ⟨hnx, hny⟩ := npIdx_of_inBounds hp
    obtain ⟨t', ht', hchar⟩ :=
      ih (tset t p.position.1.toNat p.position.2.toNat 0 (p.age + 1))
        (fun q hq => hb q (List.mem_cons_of_mem p hq)) hd.of_cons
    refine ⟨t', ?_, ?_⟩
    · rw [writePieces, hnx, hny]
      exact ht'
    · intro x y c hx hy
      rw [hchar x y c hx hy]
      by_cases hc : c = 0
      · subst hc
        rw [if_pos rfl, if_pos rfl]
        by_cases hpx : p.position = ((x : ℤ), (y : ℤ))
        · have hfind : (p :: rest).find?
              (fun q => decide (q.position = ((x : ℤ), (y : ℤ)))) = some p :=
            List.find?_cons_of_pos rest (by simp [hpx])
          have hrest : rest.find?
              (fun q => decide (q.position = ((x : ℤ), (y : ℤ)))) = none := by
            rw [List.find?_eq_none]
            intro q hq
            have hne := (List.pairwise_cons.mp hd).1 q hq
            simp [← hpx]
            intro hqq
            exact absurd hqq.symm hne
          rw [hfind, hrest]
          obtain ⟨hx', hy'⟩ := (toNat_cell_iff hp x y).mpr hpx
          rw [hx', hy']
          exact tset_eq_cell t _ _ _ _
        · have hfind : (p :: rest).find?
              (fun q => decide (q.position = ((x : ℤ), (y : ℤ)))) =
              rest.find? (fun q => decide (q.position = ((x : ℤ), (y : ℤ)))) :=
            List.find?_cons_of_neg rest (by simp [hpx])
          rw [hfind]
          cases hr : rest.find? (fun q => decide (q.position = ((x : ℤ), (y : ℤ)))) with
          | some q => rfl
          | none =>
            exact tset_ne_cell t _ _ _ _ x y _
              (fun hcon => hpx ((toNat_cell_iff hp x y).mp hcon))
      · rw [if_neg hc, if_neg hc]
        exact tset_ne_channel t _ _ _ _ x y c hc

/-- Characterization of `encode`: when all pieces are in bounds at distinct
cells and the cherry is in bounds, encoding succeeds and the tensor agrees
with `encodeSpec` on every in-grid cell and channel. -/
lemma encode_char (e : SnakeGameState)
    (hb : ∀ p ∈ e.game.pieces, inBounds e.width e.height p.position)
    (hd : List.Pairwise (fun p q => p.position ≠ q.position) e.game.pieces)
    (hc : inBounds e.width e.height e.game.cherryPos) :
    ∃ t, e.encode = some t ∧
      ∀ x y c, x < e.width → y < e.height → c < 4 →
        t x y c = encodeSpec e x y c := by
  obtain ⟨t1, ht1, hchar1⟩ :=
    writePieces_char e.width e.height e.game.pieces (fun _ _ _ => 0) hb hd
  obtain ⟨hcx, hcy⟩ := npIdx_of_inBounds hc
  unfold SnakeGameState.encode
  rw [ht1, hcx, hcy]
  refine ⟨_, rfl, ?_⟩
  intro x y c hx hy hc4
  have hbase : ∀ k, k ≠ 0 → t1 x y k = 0 := by
    intro k hk
    rw [hchar1 x y k hx hy, if_neg hk]
  have h3c : ∀ (k : ℕ), k ≠ 2 → ∀ u : Tensor,
      (if inBounds e.width e.height (nextLookahead e) then
          tset u (nextLookahead e).1.toNat (nextLookahead e).2.toNat 2 1
        else u) x y k = u x y k := by
    intro k hk u; split
    · exact tset_ne_channel _ _ _ _ _ _ _ _ hk
    · rfl
  have h2c : ∀ (k : ℕ), k ≠ 1 → ∀ u : Tensor,
      (if inBounds e.width e.height e.game.headPos then
          tset u e.game.headPos.1.toNat e.game.headPos.2.toNat 1 1
        else u) x y k = u x y k := by
    intro k hk u; split
    · exact tset_ne_channel _ _ _ _ _ _ _ _ hk
    · rfl
  interval_cases c
  · -- channel 0
    rw [tset_ne_channel _ _ _ _ _ _ _ _ (by norm_num : (0 : ℕ) ≠ 3),
      h3c 0 (by norm_num), h2c 0 (by norm_num), hchar1 x y 0 hx hy, if_pos rfl]
    norm_num [encodeSpec]
  · -- channel 1
    rw [tset_ne_channel _ _ _ _ _ _ _ _ (by norm_num : (1 : ℕ) ≠ 3),
      h3c 1 (by norm_num)]
    norm_num [encodeSpec]
    by_cases hin : inBounds e.width e.height e.game.headPos
    · rw [if_pos hin]
      by_cases heq : e.game.headPos = ((x : ℤ), (y : ℤ))
      · obtain ⟨hx', hy'⟩ := (toNat_cell_iff hin x y).mpr heq
        rw [if_pos heq, hx', hy']
        exact tset_eq_cell t1 _ _ _ _
      · rw [if_neg heq,
          tset_ne_cell t1 _ _ _ _ x y _
            (fun hcon => heq ((toNat_cell_iff hin x y).mp hcon)),
          hbase 1 (by norm_num)]
    · rw [if_neg hin]
      have heq : e.game.headPos ≠ ((x : ℤ), (y : ℤ)) := by
        intro hcon
        exact hin (hcon ▸ inBounds_cell x y hx hy)
      rw [if_neg heq, hbase 1 (by norm_num)]
  · -- channel 2
    rw [tset_ne_channel _ _ _ _ _ _ _ _ (by norm_num : (2 : ℕ) ≠ 3)]
    norm_num [encodeSpec]
    by_cases hin : inBounds e.width e.height (nextLookahead e)
    · rw [if_pos hin]
      by_cases heq : nextLookahead e = ((x : ℤ), (y : ℤ))
      · obtain ⟨hx', hy'⟩ := (toNat_cell_iff hin x y).mpr heq
        rw [if_pos heq, hx', hy']
        exact tset_eq_cell _ _ _ _ _
      · rw [if_neg heq,
          tset_ne_cell _ _ _ _ _ x y _
            (fun hcon => heq ((toNat_cell_iff hin x y).mp hcon)),
          h2c 2 (by norm_num), hbase 2 (by norm_num)]
    · rw [if_neg hin]
      have heq : nextLookahead e ≠ ((x : ℤ), (y : ℤ)) := by
        intro hcon
        exact hin (hcon ▸ inBounds_cell x y hx hy)
      rw [if_neg heq, h2c 2 (by norm_num), hbase 2 (by norm_num)]
  · -- channel 3
    norm_num [encodeSpec]
    by_cases hch : e.game.cherryPos = ((x : ℤ), (y : ℤ))
    · obtain ⟨hx', hy'⟩ := (toNat_cell_iff hc x y).mpr hch
      rw [if_pos hch, hx', hy']
      exact tset_eq_cell _ _ _ _ _
    · rw [if_neg hch,
        tset_ne_cell _ _ _ _ _ x y _
          (fun hcon => hch ((toNat_cell_iff hc x y).mp hcon)),
        h3c 3 (by norm_num), h2c 3 (by norm_num), hbase 3 (by norm_num)]

/-- C4: `encode` is a pure function of the current entity positions: with
the live pieces at pairwise-distinct in-bounds cells and the cherry in
bounds, it returns a tensor that on every in-grid cell and channel agrees
with `encodeSpec` — zero everywhere except age+1 on channel 0 at each live
piece's cell, 1 on channel 1 at the head's (in-bounds) cell, 1 on channel 2
at the projected next cell (wrapped when the loop flag is set, in-bounds
guarded), and 1 on channel 3 at the cherry's cell. -/
theorem encode_matches_spec (e : SnakeGameState)
    (hb : ∀ p ∈ e.game.pieces, inBounds e.width e.height p.position)
    (hd : List.Pairwise (fun p q => p.position ≠ q.position) e.game.pieces)
    (hc : inBounds e.width e.height e.game.cherryPos) :
    ∃ t, e.encode = some t ∧
      ∀ x y c, x < e.width → y < e.height → c < 4 →
        t x y c = encodeSpec e x y c :=
  encode_char e hb hd hc

/-- Witness for C4 on a concrete environment with two live pieces. -/
theorem encode_matches_spec_witness :
    (∀ p ∈ sampleEncEnv.game.pieces,
        inBounds sampleEncEnv.width sampleEncEnv.height p.position) ∧
    List.Pairwise (fun p q => p.position ≠ q.position) sampleEncEnv.game.pieces ∧
    inBounds sampleEncEnv.width sampleEncEnv.height sampleEncEnv.game.cherryPos ∧
    (∃ t, sampleEncEnv.encode = some t ∧
      ∀ x y c, x < sampleEncEnv.width → y < sampleEncEnv.height → c < 4 →
        t x y c = encodeSpec sampleEncEnv x y c) :=
  ⟨by decide, by decide, by decide,
    encode_matches_spec sampleEncEnv (by decide) (by decide) (by decide)⟩

/-- C9 counterexample: seeding with 16 and resetting a 4-by-4 environment
puts the cherry exactly at the head's initial cell (0,0) — the head's
starting cell is never removed from the free set before the first cherry
draw — and the observation then has channel 3 set to 1 at (0,0). -/
theorem reset_cherry_at_origin :
    (SnakeEnv.makeEnv (4, 4) 4 4 true false (some 16)).bind
        (fun e => e.encode.map (fun t => (t 0 0 3, e.game.headPos, e.game.cherryPos)))
      = some (1, ((0 : ℤ), (0 : ℤ)), ((0 : ℤ), (0 : ℤ))) := by
  decide

/-- C9 amended: for a 4-by-4 grid, immediately after reset the cherry
channel (channel 3) has exactly one in-grid cell set to 1 — the cherry's
cell, which may be any free cell, including the head's initial cell
(0,0). -/
theorem reset_cherry_channel_unique (sv : Option ℕ) (hl lp : Bool) :
    ∃ e t, SnakeEnv.makeEnv (4, 4) 4 4 hl lp sv = some e ∧
      e.encode = some t ∧
      ∃! cell : ℕ × ℕ, cell.1 < 4 ∧ cell.2 < 4 ∧ t cell.1 cell.2 3 = 1 := by
  set E := SnakeGameState.reset (4, 4)
    { width := 4, height := 4, headless := hl, loop := lp,
      random := SnakeGameState.seed sv, game := Level.init (4, 4) 0 } with hE
  have hmk : SnakeEnv.makeEnv (4, 4) 4 4 hl lp sv = some E := by
    unfold SnakeEnv.makeEnv
    rw [if_pos rfl, hE]
  have hpieces : E.game.pieces = [] := rfl
  have hcherry : E.game.cherryPos ∈ initFree (4, 4) := by
    have hlen : (initFree (4, 4)).length = 16 := by decide
    show (initFree (4, 4)).getD _ (0, 0) ∈ initFree (4, 4)
    exact getD_mem_of_lt _ _ _ (by rw [hlen]; exact Nat.mod_lt _ (by norm_num))
  have hcb : inBounds E.width E.height E.game.cherryPos := by
    have hall : ∀ p ∈ initFree (4, 4), inBounds 4 4 p := by decide
    exact hall _ hcherry
  obtain ⟨t, henc, hchar⟩ := encode_char E
    (by rw [hpieces]; intro p hp; exact absurd hp (List.not_mem_nil p))
    (by rw [hpieces]; exact List.Pairwise.nil)
    hcb
  refine ⟨E, t, hmk, henc, ?_⟩
  have hcell : E.game.cherryPos =
      ((E.game.cherryPos.1.toNat : ℤ), (E.game.cherryPos.2.toNat : ℤ)) :=
    (toNat_cell_iff hcb _ _).mp ⟨rfl, rfl⟩
  obtain ⟨hc1, hc2, hc3, hc4⟩ := hcb
  have hw2 : E.game.cherryPos.1 < ((4 : ℕ) : ℤ) := hc2
  have hh2 : E.game.cherryPos.2 < ((4 : ℕ) : ℤ) := hc4
  have hb1 : E.game.cherryPos.1.toNat < 4 := by omega
  have hb2 : E.game.cherryPos.2.toNat < 4 := by omega
  refine ⟨(E.game.cherryPos.1.toNat, E.game.cherryPos.2.toNat), ⟨hb1, hb2, ?_⟩, ?_⟩
  · have hv := hchar E.game.cherryPos.1.toNat E.game.cherryPos.2.toNat 3 hb1 hb2
      (by norm_num)
    rw [hv]
    norm_num [encodeSpec]
    rw [sup_eq_left.mpr hc1, sup_eq_left.mpr hc3]
  · rintro ⟨a, b⟩ ⟨ha, hb', hv⟩
    have hta := hchar a b 3 ha hb' (by norm_num)
    rw [hta] at hv
    norm_num [encodeSpec] at hv
    obtain ⟨ha', hb''⟩ := (toNat_cell_iff ⟨hc1, hw2, hc3, hh2⟩ a b).mpr hv
    rw [ha', hb'']
